import Mathlib

/-!
Shallow embedding of the star-track dashboard's time-series aggregation and
trend-classification engine (the `Utils` and `DataStore` objects of the
dashboard sources), translated directly from the JavaScript source.

Modelling conventions:
* JS numbers are modelled as `ℚ` (the engine only does +, -, /, *, comparison
  on exact decimal data; no float-rounding-sensitive claim is in scope).
* A `null`/missing cell is `Option ℚ` with `none`.  The data-load step
  normalises every row so that every column key is present (value `null` when
  the CSV cell is empty), so `undefined` and `null` coincide in the engine
  and both are modelled as `none`.
* JS `Array.prototype.sort` is stable (ES2019); it is modelled by the stable
  `List.insertionSort`.  An in-place sort is modelled by returning the sorted
  list as the new state of the mutated array.
* The wall-clock "today" (`new Date()` truncated to a civil date by
  `formatDate`) is injected as an explicit epoch-day parameter `today : ℤ`;
  `getDaysAgo today n` renders the ISO date string `n` days before it, using
  the standard civil-from-days conversion (`Date.setDate` arithmetic is exact
  day arithmetic on the date part).
-/

namespace StarTrack

/-- A normalised data row: ISO date string plus named numeric cells
(`none` = the CSV cell was empty / the JS value is `null`). -/
structure Row where
  date : String
  cells : List (String × Option ℚ)
deriving DecidableEq, Repr

/-- `row[column]` access. -/
def Row.get (r : Row) (c : String) : Option ℚ := (r.cells.lookup c).getD none

/-- Structural lexicographic comparison of char lists by code point: the
effect of JS string comparison (`localeCompare`, `<`, `>=`) on the engine's
ASCII `YYYY-MM-DD` date strings. -/
def charListLt : List Char → List Char → Bool
  | [], [] => false
  | [], _ :: _ => true
  | _ :: _, [] => false
  | a :: as, b :: bs =>
    if a.val.toNat < b.val.toNat then true
    else if b.val.toNat < a.val.toNat then false
    else charListLt as bs

/-- `a < b` on date strings. -/
def strLt (a b : String) : Prop := charListLt a.data b.data = true

/-- `a <= b` on date strings, i.e. `!(b < a)`. -/
def strLe (a b : String) : Prop := charListLt b.data a.data = false

instance : DecidableRel strLt :=
  fun a b => inferInstanceAs (Decidable (charListLt a.data b.data = true))

instance : DecidableRel strLe :=
  fun a b => inferInstanceAs (Decidable (charListLt b.data a.data = false))

/-- Ascending date comparator, as `(a, b) => a.date.localeCompare(b.date)`. -/
def dle (a b : Row) : Prop := strLe a.date b.date

/-- Descending date comparator, as `(a, b) => b.date.localeCompare(a.date)`. -/
def dge (a b : Row) : Prop := strLe b.date a.date

instance : DecidableRel dle := fun a b => inferInstanceAs (Decidable (strLe a.date b.date))

instance : DecidableRel dge := fun a b => inferInstanceAs (Decidable (strLe b.date a.date))

/-- `[...data].sort((a, b) => a.date.localeCompare(b.date))` (stable). -/
def sortAsc (l : List Row) : List Row := List.insertionSort dle l

/-- `[...data].sort((a, b) => b.date.localeCompare(a.date))` (stable). -/
def sortDesc (l : List Row) : List Row := List.insertionSort dge l

/-- Zero-padded decimal rendering of a natural number. -/
def pad (width n : ℕ) : String :=
  let s := toString n
  String.mk (List.replicate (width - s.length) '0') ++ s

/-- Days from civil date (proleptic Gregorian, epoch 1970-01-01). -/
def toEpochDays (y : ℤ) (m d : ℕ) : ℤ :=
  let y' : ℤ := if m ≤ 2 then y - 1 else y
  let era : ℤ := Int.fdiv y' 400
  let yoe : ℕ := (y' - era * 400).toNat
  let mp : ℕ := if 2 < m then m - 3 else m + 9
  let doy : ℕ := (153 * mp + 2) / 5 + d - 1
  let doe : ℕ := yoe * 365 + yoe / 4 - yoe / 100 + doy
  era * 146097 + (doe : ℤ) - 719468

/-- Civil date (year, month, day) from epoch days. -/
def fromEpochDays (z : ℤ) : ℤ × ℕ × ℕ :=
  let z' : ℤ := z + 719468
  let era : ℤ := Int.fdiv z' 146097
  let doe : ℕ := (z' - era * 146097).toNat
  let yoe : ℕ := (doe - doe / 1460 + doe / 36524 - doe / 146096) / 365
  let y : ℤ := (yoe : ℤ) + era * 400
  let doy : ℕ := doe - (365 * yoe + yoe / 4 - yoe / 100)
  let mp : ℕ := (5 * doy + 2) / 153
  let d : ℕ := doy - (153 * mp + 2) / 5 + 1
  let m : ℕ := if mp < 10 then mp + 3 else mp - 9
  (if m ≤ 2 then y + 1 else y, m, d)

/-- `Utils.formatDate` applied to the date `z` days after the epoch:
the ISO `YYYY-MM-DD` string. -/
def dateStr (z : ℤ) : String :=
  let c := fromEpochDays z
  pad 4 c.1.toNat ++ "-" ++ pad 2 c.2.1 ++ "-" ++ pad 2 c.2.2

/-- The discrete streak returned by the trend classifiers:
`{ symbol, value, tooltip }`. -/
structure TrendResult where
  symbol : String
  value : ℤ
  tooltip : String
deriving DecidableEq, Repr

namespace Utils

/-- `Utils.getDaysAgo(days)` with the wall-clock date injected. -/
def getDaysAgo (today : ℤ) (days : ℕ) : String := dateStr (today - days)

/-- `Utils.calculateChange(current, previous)`.  JS `!previous` is true for
`null` and `0`; `current || 0` and the `null → 0` numeric coercion inside
the subtraction are both `Option.getD 0`. -/
def calculateChange (current previous : Option ℚ) : ℚ × ℚ :=
  match previous with
  | none => (current.getD 0, 0)
  | some p =>
    if p = 0 then (current.getD 0, 0)
    else (current.getD 0 - p, (current.getD 0 - p) / p * 100)

/-- `Utils.getGrowthThreshold(periodDays)`. -/
def getGrowthThreshold (periodDays : ℕ) : ℚ :=
  if periodDays ≤ 7 then 1 else if periodDays ≤ 30 then 2 else 3

/-- `Utils.classifyPeriodGrowth(startVal, endVal, threshold)`.  JS
`!startVal` is true for `null` and `0`; `endVal` undergoes the `null → 0`
coercion inside the arithmetic. -/
def classifyPeriodGrowth (startVal endVal : Option ℚ) (threshold : ℚ) : String :=
  if startVal = none ∨ startVal = some 0 then "stagnant"
  else
    let s := startVal.getD 0
    let percent := (endVal.getD 0 - s) / s * 100
    if threshold ≤ percent then "growth"
    else if percent ≤ -threshold then "decline"
    else "stagnant"

/-- The period label used in `Utils.getTrend` / `Utils.getPypiTrend` tooltips. -/
def periodLabel (periodDays : ℕ) : String :=
  if periodDays = 7 then "week" else if periodDays = 30 then "month" else "90 days"

/-- The per-window classification loop of `Utils.getTrend`: for each of the
three consecutive windows (most recent first) look up the latest row at or
before each boundary whose column is non-null, classify when both boundary
values exist, and drop the window otherwise. -/
def trendPeriods (data : List Row) (column : String) (periodDays : ℕ) (today : ℤ) :
    List String :=
  let sorted := sortAsc data
  let threshold := getGrowthThreshold periodDays
  (List.range 3).filterMap fun i =>
    let endDate := getDaysAgo today (i * periodDays)
    let startDate := getDaysAgo today ((i + 1) * periodDays)
    let endVal := sorted.foldl
      (fun acc r => if strLe r.date endDate ∧ (r.get column).isSome then r.get column else acc)
      none
    let startVal := sorted.foldl
      (fun acc r => if strLe r.date startDate ∧ (r.get column).isSome then r.get column else acc)
      none
    match endVal, startVal with
    | some e, some s => some (classifyPeriodGrowth (some s) (some e) threshold)
    | _, _ => none

/-- The reduction step of `Utils.getTrend` on the evaluable-window list
(most recent first): the if-chain after the window loop. -/
def trendReduce (ps : List String) (threshold : ℚ) (lab : String) : TrendResult :=
  if ps = [] then ⟨"—", 0, "Not enough data"⟩
  else
    let growthCount := (ps.filter (· = "growth")).length
    let declineCount := (ps.filter (· = "decline")).length
    let currentPeriod := ps.headD ""
    if growthCount = 3 then
      ⟨"↗↗↗", 3, s!"Growing >{threshold}% for 3 consecutive {lab}s"⟩
    else if growthCount = 2 ∧ ps[0]? = some "growth" ∧ ps[1]? = some "growth" then
      ⟨"↗↗", 2, s!"Growing >{threshold}% for 2 consecutive {lab}s"⟩
    else if currentPeriod = "growth" then
      ⟨"↗", 1, s!"Growing >{threshold}% this {lab}"⟩
    else if currentPeriod = "decline" then
      ⟨"↘", -1, s!"Declining >{threshold}% this {lab}"⟩
    else if 2 ≤ declineCount then
      ⟨"↘↘", -2, s!"Declining for multiple {lab}s"⟩
    else
      ⟨"→", 0, s!"Change within ±{threshold}% (stagnant)"⟩

/-- `Utils.getTrend(data, column, periodDays)`: the point-in-time gauge trend
classifier. -/
def getTrend (data : List Row) (column : String) (periodDays : ℕ) (today : ℤ) :
    TrendResult :=
  if data.length < 2 then ⟨"—", 0, "Not enough data"⟩
  else
    trendReduce (trendPeriods data column periodDays today)
      (getGrowthThreshold periodDays) (periodLabel periodDays)

/-- `Utils.getPypiTrend(data, column, periodDays)`: the cumulative-sum trend
variant (sums values strictly inside each window, two period-over-period
comparisons).  The loops of fixed length 3 and 2 are unrolled. -/
def getPypiTrend (data : List Row) (column : String) (periodDays : ℕ) (today : ℤ) :
    TrendResult :=
  if data.length < 2 then ⟨"—", 0, "Not enough data"⟩
  else
    let threshold := getGrowthThreshold periodDays
    let wsum := fun (i : ℕ) =>
      let periodEnd := getDaysAgo today (i * periodDays)
      let periodStart := getDaysAgo today ((i + 1) * periodDays)
      data.foldl
        (fun sum r =>
          if strLt r.date periodStart ∨ strLe periodEnd r.date then sum
          else sum + (r.get column).getD 0)
        0
    let p0 := wsum 0
    let p1 := wsum 1
    let p2 := wsum 2
    if p0 = 0 ∧ p1 = 0 then ⟨"—", 0, "No downloads in recent periods"⟩
    else
      let cmp := fun (current previous : ℚ) =>
        if previous = 0 then (if 0 < current then "growth" else "stagnant")
        else
          let percent := (current - previous) / previous * 100
          if threshold ≤ percent then "growth"
          else if percent ≤ -threshold then "decline"
          else "stagnant"
      let r0 := cmp p0 p1
      let r1 := cmp p1 p2
      let lab := periodLabel periodDays
      if r0 = "growth" ∧ r1 = "growth" then
        ⟨"↗↗", 2, s!"Downloads growing >{threshold}% for 2 consecutive {lab}s"⟩
      else if r0 = "growth" then
        ⟨"↗", 1, s!"Downloads up >{threshold}% vs previous {lab}"⟩
      else if r0 = "decline" then
        ⟨"↘", -1, s!"Downloads down >{threshold}% vs previous {lab}"⟩
      else
        ⟨"→", 0, s!"Downloads within ±{threshold}% (stable)"⟩

/-- `Utils.streakToNumber` on a streak-symbol string. -/
def streakToNumber (streak : String) : ℤ :=
  (([("↗↗↗", 3), ("↗↗", 2), ("↗", 1), ("→", 0), ("↘", -1), ("↘↘", -2), ("—", -99)] :
      List (String × ℤ)).lookup streak).getD 0

/-- `Utils.getLatestValue(data, column)`: value of the column in the head of
the descending-sorted copy. -/
def getLatestValue (data : List Row) (column : String) : Option ℚ :=
  match sortDesc data with
  | [] => none
  | r :: _ => r.get column

/-- `Utils.getPreviousValue(data, column, daysBack)`: walk the ascending-sorted
copy keeping the last row dated at or before the target, breaking at the first
later row; `closest` starts at the earliest row. -/
def getPreviousValue (data : List Row) (column : String) (daysBack : ℕ) (today : ℤ) :
    Option ℚ :=
  match sortAsc data with
  | [] => none
  | s0 :: rest =>
    let targetDate := getDaysAgo today daysBack
    (((s0 :: rest).takeWhile (fun r => strLe r.date targetDate)).getLast?.getD s0).get column

/-- `Utils.getColumnValues(data, column)`: sorts the caller's array IN PLACE
(no copy in the source), then maps the column and drops null values.  The
first component is the returned value list, the second the new state of the
caller-supplied array. -/
def getColumnValues (data : List Row) (column : String) : List ℚ × List Row :=
  let s := sortAsc data
  (s.filterMap (fun r => r.get column), s)

end Utils

/-- One per-entity stat record assembled by `getGithubStats`/`getPypiStats`. -/
structure StatRecord where
  name : String
  current : Option ℚ
  change : ℚ
  percent : ℚ
  streak : TrendResult
  values : List ℚ
deriving DecidableEq, Repr

/-- Comparator of the final stats sort:
`(a, b) => (b.current || 0) - (a.current || 0)` (descending by current). -/
def curGe (a b : StatRecord) : Prop := b.current.getD 0 ≤ a.current.getD 0

instance : DecidableRel curGe :=
  fun a b => inferInstanceAs (Decidable (b.current.getD 0 ≤ a.current.getD 0))

/-- Comparator of `getTopByChange`: `(a, b) => b.change - a.change`. -/
def chgGe (a b : StatRecord) : Prop := b.change ≤ a.change

instance : DecidableRel chgGe :=
  fun a b => inferInstanceAs (Decidable (b.change ≤ a.change))

/-- The engine-relevant state of the `DataStore` object.  The JS selection
sets iterate in insertion order and are modelled as lists; only membership
and whole-set enumeration are used. -/
structure DataStore where
  githubData : List Row
  pypiData : List Row
  githubColumns : List String
  pypiColumns : List String
  selectedGithub : List String
  selectedPypi : List String
deriving DecidableEq, Repr

/-- One bucket of `DataStore.aggregateByGranularity`: bucket key, display
label, and the last non-null value seen per column inside the bucket. -/
structure Bucket where
  key : String
  label : String
  data : List (String × ℚ)
deriving DecidableEq, Repr

/-- One stacked-chart dataset emitted by `getStackedGrowthData`. -/
structure GrowthDataset where
  label : String
  fullName : String
  data : List ℚ
deriving DecidableEq, Repr

/-- The chart payload of `getStackedGrowthData`. -/
structure ChartResult where
  labels : List String
  datasets : List GrowthDataset
  selectedItems : List String
deriving DecidableEq, Repr

/-- The locale/timezone-dependent pieces of `aggregateByGranularity`: the
calendar-week and calendar-month bucket keys (computed in the source with
`new Date(row.date)` plus `getDay`/`getMonth` in the runtime timezone) and
the `toLocaleDateString` display labels, abstracted as functions of the
row's ISO date string. -/
structure DateEnv where
  weekKey : String → String
  monthKey : String → String
  dayLabel : String → String
  weekLabel : String → String
  monthLabel : String → String

namespace DataStore

/-- The loop body of `getGithubStats`/`getPypiStats` for one selected column.
`getColumnValues` sorts the shared row array in place, so the new state of
that array is threaded out alongside the record. -/
def statForCol (data : List Row) (col : String) (period : ℕ) (today : ℤ) :
    StatRecord × List Row :=
  let vs := Utils.getColumnValues data col
  let d := vs.2
  let current := Utils.getLatestValue d col
  let previous := Utils.getPreviousValue d col period today
  let change := Utils.calculateChange current previous
  let trend := Utils.getTrend d col period today
  (⟨col, current, change.1, change.2, trend, vs.1⟩, d)

/-- The loop step of the stats queries over one column name. -/
def statsStep (sel : List String) (period : ℕ) (today : ℤ)
    (acc : List StatRecord × List Row) (col : String) :
    List StatRecord × List Row :=
  if sel.contains col then
    let sc := statForCol acc.2 col period today
    (acc.1 ++ [sc.1], sc.2)
  else acc

/-- `DataStore.getGithubStats(period)`: one record per selected column,
sorted descending by current value.  The second component is the data-store
state after the call (the row array object is sorted in place by the first
`getColumnValues` call). -/
def getGithubStats (st : DataStore) (period : ℕ) (today : ℤ) :
    List StatRecord × DataStore :=
  if st.githubData.isEmpty then ([], st)
  else
    let r := st.githubColumns.foldl (statsStep st.selectedGithub period today)
      (([] : List StatRecord), st.githubData)
    (List.insertionSort curGe r.1, { st with githubData := r.2 })

/-- `DataStore.getPypiStats(period)`: identical shape to `getGithubStats`
over the PyPI table; note it computes the streak with `Utils.getTrend`
(the gauge classifier), exactly as the source does at the call site. -/
def getPypiStats (st : DataStore) (period : ℕ) (today : ℤ) :
    List StatRecord × DataStore :=
  if st.pypiData.isEmpty then ([], st)
  else
    let r := st.pypiColumns.foldl (statsStep st.selectedPypi period today)
      (([] : List StatRecord), st.pypiData)
    (List.insertionSort curGe r.1, { st with pypiData := r.2 })

/-- The reducer of `getTopGrower`:
`(best, current) => (!best || current.change > best.change) ? current : best`. -/
def pickBest (best : Option StatRecord) (cur : StatRecord) : Option StatRecord :=
  match best with
  | none => some cur
  | some b => if b.change < cur.change then some cur else some b

/-- `DataStore.getTopGrower(period)`: reduce over the github stats keeping
the record with strictly greater change. -/
def getTopGrower (st : DataStore) (period : ℕ) (today : ℤ) :
    Option StatRecord × DataStore :=
  let r := getGithubStats st period today
  if r.1.isEmpty then (none, r.2)
  else (r.1.foldl pickBest none, r.2)

/-- `DataStore.getTopByChange(type, period, limit)`: names of the records
with positive change, sorted descending by change, truncated to `limit`. -/
def getTopByChange (st : DataStore) (kind : String) (period : ℕ) (limit : ℕ)
    (today : ℤ) : List String × DataStore :=
  let r := if kind = "stars" then getGithubStats st period today
           else getPypiStats st period today
  (((List.insertionSort chgGe (r.1.filter (fun s => 0 < s.change))).take limit).map
      (fun s => s.name),
    r.2)

/-- Structural split of a char list at every slash, mirroring
`col.split('/')`. -/
def splitSlash : List Char → List (List Char)
  | [] => [[]]
  | c :: cs =>
    let r := splitSlash cs
    if c = '/' then [] :: r
    else
      match r with
      | [] => [[c]]
      | h :: t => (c :: h) :: t

/-- `col.includes('/') ? col.split('/').pop() : col`. -/
def shortLabel (col : String) : String :=
  String.mk ((splitSlash col.data).getLastD col.data)

/-- The bucket key of a row date under a granularity (day key is the raw
date string, as in the source; week/month keys come from the `DateEnv`). -/
def bucketKey (env : DateEnv) (granularity : String) (d : String) : String :=
  if granularity = "day" then d
  else if granularity = "week" then env.weekKey d
  else env.monthKey d

/-- The bucket display label of a row date under a granularity. -/
def bucketLabel (env : DateEnv) (granularity : String) (d : String) : String :=
  if granularity = "day" then env.dayLabel d
  else if granularity = "week" then env.weekLabel d
  else env.monthLabel d

/-- Insert-or-overwrite one cell of a bucket's per-column map
(`currentBucket.data[key] = row[key]`). -/
def setCell : List (String × ℚ) → String → ℚ → List (String × ℚ)
  | [], k, v => [(k, v)]
  | (k', v') :: t, k, v =>
    if k' = k then (k, v) :: t else (k', v') :: setCell t k v

/-- Merge a row's non-null cells into a bucket's per-column map
(`Object.keys(row)` iteration, `date` excluded, later rows overwrite). -/
def mergeRow (d : List (String × ℚ)) (r : Row) : List (String × ℚ) :=
  r.cells.foldl
    (fun acc kv => match kv.2 with
      | some v => setCell acc kv.1 v
      | none => acc)
    d

/-- The grouping loop of `aggregateByGranularity`: a new bucket starts
whenever the computed key differs from the current bucket's key. -/
def aggLoop (keyOf labelOf : Row → String) :
    List Row → Option Bucket → List Bucket → List Bucket
  | [], cur, acc =>
    match cur with
    | some b => acc ++ [b]
    | none => acc
  | r :: rest, cur, acc =>
    let k := keyOf r
    match cur with
    | some b =>
      if b.key = k then
        aggLoop keyOf labelOf rest (some { b with data := mergeRow b.data r }) acc
      else
        aggLoop keyOf labelOf rest
          (some ⟨k, labelOf r, mergeRow [] r⟩) (acc ++ [b])
    | none =>
      aggLoop keyOf labelOf rest (some ⟨k, labelOf r, mergeRow [] r⟩) acc

/-- `DataStore.aggregateByGranularity(sortedData, granularity, chartPeriod)`. -/
def aggregateByGranularity (env : DateEnv) (granularity : String)
    (sortedData : List Row) (chartPeriod : ℕ) (today : ℤ) : List Bucket :=
  let filtered :=
    if 0 < chartPeriod then
      sortedData.filter (fun r => strLe (Utils.getDaysAgo today chartPeriod) r.date)
    else sortedData
  aggLoop (fun r => bucketKey env granularity r.date)
    (fun r => bucketLabel env granularity r.date) filtered none []

/-- The growth series of one column over the bucket sequence:
`max(0, thisBucketValue − previousBucketValue)` over consecutive bucket
pairs, missing bucket values coerced to 0 (`|| 0`). -/
def mkGrowth (buckets : List Bucket) (col : String) : List ℚ :=
  (buckets.zip buckets.tail).map
    (fun pc => max 0 ((pc.2.data.lookup col).getD 0 - (pc.1.data.lookup col).getD 0))

/-- The column-resolution prefix of `getStackedGrowthData`: caller items if
non-empty, else top-5 by change (which runs the stats queries and may sort
the row arrays in place), else the first five selected columns. -/
def resolveStackedColumns (st : DataStore) (kind : String)
    (items : Option (List String)) (chartPeriod : ℕ) (today : ℤ) :
    List String × DataStore :=
  let fb :=
    let r := getTopByChange st kind chartPeriod 5 today
    if r.1.isEmpty then
      ((if kind = "stars" then r.2.selectedGithub else r.2.selectedPypi).take 5, r.2)
    else r
  match items with
  | some cs => if cs.isEmpty then fb else (cs, st)
  | none => fb

/-- The granularity derived from the chart period. -/
def granularityOf (chartPeriod : ℕ) : String :=
  if chartPeriod ≤ 7 then "day" else if chartPeriod ≤ 30 then "week" else "month"

/-- The bucket sequence `getStackedGrowthData` aggregates over (the row
array is read after the possible in-place sorts of the stats queries, since
the local `data` binding aliases the mutated array object). -/
def stackedBuckets (st : DataStore) (kind : String) (items : Option (List String))
    (chartPeriod : ℕ) (today : ℤ) (env : DateEnv) : List Bucket :=
  let st' := (resolveStackedColumns st kind items chartPeriod today).2
  let data := if kind = "stars" then st'.githubData else st'.pypiData
  aggregateByGranularity env (granularityOf chartPeriod) (sortAsc data)
    chartPeriod today

/-- `DataStore.getStackedGrowthData(type, items, chartPeriod)`.  The second
component is the data-store state after the call. -/
def getStackedGrowthData (st : DataStore) (kind : String)
    (items : Option (List String)) (chartPeriod : ℕ) (today : ℤ) (env : DateEnv) :
    ChartResult × DataStore :=
  let rc := resolveStackedColumns st kind items chartPeriod today
  let columns := rc.1
  let st' := rc.2
  let data := if kind = "stars" then st'.githubData else st'.pypiData
  let sorted := sortAsc data
  if sorted.length < 2 then (⟨[], [], columns⟩, st')
  else
    let buckets := stackedBuckets st kind items chartPeriod today env
    let datasets := columns.map
      (fun col => (⟨shortLabel col, col, mkGrowth buckets col⟩ : GrowthDataset))
    let labels := (buckets.drop 1).map Bucket.label
    (⟨labels, datasets, columns⟩, st')

end DataStore

/-! ### Specification-side definitions and proof fixtures -/

/-- Rows with different dates (the spec's table invariant: dates are unique). -/
def dateNe (a b : Row) : Prop := a.date ≠ b.date

instance : DecidableRel dateNe := fun a b => inferInstanceAs (Decidable (a.date ≠ b.date))

/-- Spec-side reduction: the streak symbol prescribed by the claimed priority
order (first match wins) on the evaluable-window list, most recent first.
This follows the claim's wording and is compared against `Utils.trendReduce`. -/
def specReduceSymbol (ps : List String) : String :=
  if ps = [] then "—"
  else if ps.length = 3 ∧ ∀ x ∈ ps, x = "growth" then "↗↗↗"
  else if ps[0]? = some "growth" ∧ ps[1]? = some "growth" then "↗↗"
  else if ps[0]? = some "growth" then "↗"
  else if ps[0]? = some "decline" then "↘"
  else if 2 ≤ (ps.filter (fun x => x = "decline")).length then "↘↘"
  else "→"

/-- Spec-side reduction: the magnitude prescribed by the claimed priority
order, paired with `specReduceSymbol`. -/
def specReduceValue (ps : List String) : ℤ :=
  if ps = [] then 0
  else if ps.length = 3 ∧ ∀ x ∈ ps, x = "growth" then 3
  else if ps[0]? = some "growth" ∧ ps[1]? = some "growth" then 2
  else if ps[0]? = some "growth" then 1
  else if ps[0]? = some "decline" then -1
  else if 2 ≤ (ps.filter (fun x => x = "decline")).length then -2
  else 0

/-- The stat record of one column computed against a fixed table snapshot:
what one iteration of the stats loop produces, expressed on the original
(pre-sort) table.  Used to state what `getGithubStats`/`getPypiStats` put in
each record. -/
def mkStat (data : List Row) (col : String) (period : ℕ) (today : ℤ) : StatRecord :=
  let current := Utils.getLatestValue data col
  let previous := Utils.getPreviousValue data col period today
  let change := Utils.calculateChange current previous
  ⟨col, current, change.1, change.2, Utils.getTrend data col period today,
    (Utils.getColumnValues data col).1⟩

/-- The unsorted record list of a stats query: one `mkStat` per selected
column, in column iteration order. -/
def selectedStats (data : List Row) (cols sel : List String) (period : ℕ)
    (today : ℤ) : List StatRecord :=
  (cols.filter (fun c => sel.contains c)).map (fun c => mkStat data c period today)

/-- What a query may do to the data-store state: every field except the row
arrays is untouched, and the row arrays keep exactly the same rows (only
their order may change, from the in-place sort of `getColumnValues`). -/
def preservesStore (st st' : DataStore) : Prop :=
  st'.githubData.Perm st.githubData ∧ st'.pypiData.Perm st.pypiData ∧
  st'.githubColumns = st.githubColumns ∧ st'.pypiColumns = st.pypiColumns ∧
  st'.selectedGithub = st.selectedGithub ∧ st'.selectedPypi = st.selectedPypi

/-- Concrete "today" used by the concrete-input theorems: 2026-10-12. -/
def d0 : ℤ := toEpochDays 2026 10 12

/-- Table where the max-date row has the column absent while an earlier row
has it present. -/
def data1 : List Row :=
  [⟨"2024-01-01", [("x", some 5)]⟩, ⟨"2024-01-02", [("x", none)]⟩]

/-- Table whose rows are all dated after `today − 30` days. -/
def data3 : List Row :=
  [⟨"2026-10-07", [("x", some 100)]⟩, ⟨"2026-10-11", [("x", some 110)]⟩]

/-- Single-row table dated far in the past (every window boundary resolves
to it, so every window is evaluable and stagnant). -/
def data4 : List Row := [⟨"2020-01-01", [("x", some 50)]⟩]

/-- Two-row flat table far in the past: every window stagnant, streak flat. -/
def flat8 : List Row :=
  [⟨"2020-01-01", [("x", some 50)]⟩, ⟨"2020-01-02", [("x", some 50)]⟩]

/-- PyPI store whose rows lie outside the two most recent 30-day windows:
the cumulative-sum variant reports insufficient data there, the gauge
classifier reports flat. -/
def st2 : DataStore :=
  ⟨[], [⟨"2026-07-04", [("pkg", some 10)]⟩, ⟨"2026-07-09", [("pkg", some 10)]⟩],
    [], ["pkg"], [], ["pkg"]⟩

/-- GitHub store with two columns `a`, `b` (in that iteration order) whose
30-day changes tie at 10 while `b` has the larger current value. -/
def st7 : DataStore :=
  ⟨[⟨"2026-09-02", [("a", some 40), ("b", some 100)]⟩,
    ⟨"2026-10-11", [("a", some 50), ("b", some 110)]⟩],
    [], ["a", "b"], [], ["a", "b"], []⟩

/-- GitHub store whose row array is not date-sorted. -/
def st9 : DataStore :=
  ⟨[⟨"2026-10-11", [("a", some 2)]⟩, ⟨"2026-10-10", [("a", some 1)]⟩],
    [], ["a"], [], ["a"], []⟩

/-- A concrete granularity environment for the concrete-input theorems. -/
def env5 : DateEnv :=
  ⟨fun d => d, fun d => d, fun d => d, fun d => d, fun d => d⟩

/-! ### Order facts for the date-string comparator -/

theorem charListLt_asymm :
    ∀ {l₁ l₂ : List Char}, charListLt l₁ l₂ = true → charListLt l₂ l₁ = false
  | [], [], h => by simp [charListLt] at h
  | [], _ :: _, _ => by simp [charListLt]
  | _ :: _, [], h => by simp [charListLt] at h
  | a :: as, b :: bs, h => by
    unfold charListLt at h ⊢
    by_cases h1 : a.val.toNat < b.val.toNat
    · rw [if_neg (by omega), if_pos h1]
    · rw [if_neg h1] at h
      by_cases h2 : b.val.toNat < a.val.toNat
      · rw [if_pos h2] at h
        exact absurd h (by simp)
      · rw [if_neg h2] at h
        rw [if_neg h2, if_neg h1]
        exact charListLt_asymm h

theorem charListLt_trans :
    ∀ {l₁ l₂ l₃ : List Char}, charListLt l₁ l₂ = true → charListLt l₂ l₃ = true →
      charListLt l₁ l₃ = true := by
  intro l₁ l₂ l₃ h1 h2
  induction l₁ generalizing l₂ l₃ with
  | nil =>
    cases l₃ with
    | nil =>
      cases l₂ with
      | nil => simp [charListLt] at h1
      | cons b bs => simp [charListLt] at h2
    | cons c cs => simp [charListLt]
  | cons a as ih =>
    cases l₂ with
    | nil => simp [charListLt] at h1
    | cons b bs =>
      cases l₃ with
      | nil => simp [charListLt] at h2
      | cons c cs =>
        unfold charListLt at h1 h2 ⊢
        by_cases hab : a.val.toNat < b.val.toNat
        · by_cases hbc : b.val.toNat < c.val.toNat
          · rw [if_pos (by omega)]
          · rw [if_neg hbc] at h2
            by_cases hcb : c.val.toNat < b.val.toNat
            · rw [if_pos hcb] at h2
              exact absurd h2 (by simp)
            · rw [if_pos (by omega)]
        · rw [if_neg hab] at h1
          by_cases hba : b.val.toNat < a.val.toNat
          · rw [if_pos hba] at h1
            exact absurd h1 (by simp)
          · rw [if_neg hba] at h1
            by_cases hbc : b.val.toNat < c.val.toNat
            · rw [if_pos (by omega)]
            · rw [if_neg hbc] at h2
              by_cases hcb : c.val.toNat < b.val.toNat
              · rw [if_pos hcb] at h2
                exact absurd h2 (by simp)
              · rw [if_neg hcb] at h2
                rw [if_neg (by omega), if_neg (by omega)]
                exact ih h1 h2

theorem charListLt_conn :
    ∀ {l₁ l₂ : List Char}, charListLt l₁ l₂ = false → charListLt l₂ l₁ = false →
      l₁ = l₂
  | [], [], _, _ => rfl
  | [], _ :: _, h1, _ => by simp [charListLt] at h1
  | _ :: _, [], _, h2 => by simp [charListLt] at h2
  | a :: as, b :: bs, h1, h2 => by
    unfold charListLt at h1 h2
    by_cases hab : a.val.toNat < b.val.toNat
    · rw [if_pos hab] at h1
      exact absurd h1 (by simp)
    · by_cases hba : b.val.toNat < a.val.toNat
      · rw [if_pos hba] at h2
        exact absurd h2 (by simp)
      · rw [if_neg hab, if_neg hba] at h1
        rw [if_neg hba, if_neg hab] at h2
        have hv : a = b := Char.ext (UInt32.toNat.inj (by omega))
        rw [hv, charListLt_conn h1 h2]

theorem strLe_total (a b : String) : strLe a b ∨ strLe b a := by
  unfold strLe
  by_cases h : charListLt b.data a.data = true
  · exact Or.inr (charListLt_asymm h)
  · exact Or.inl (by simpa using h)

theorem strLe_trans {a b c : String} (h1 : strLe a b) (h2 : strLe b c) :
    strLe a c := by
  unfold strLe at h1 h2 ⊢
  by_cases hca : charListLt c.data a.data = true
  · by_cases hab : charListLt a.data b.data = true
    · rw [charListLt_trans hca hab] at h2
      exact absurd h2 (by simp)
    · have hab' : a.data = b.data :=
        charListLt_conn (by simpa using hab) h1
      rw [← hab'] at h2
      rw [h2] at hca
      exact absurd hca (by simp)
  · simpa using hca

theorem strLe_antisymm {a b : String} (h1 : strLe a b) (h2 : strLe b a) :
    a = b := by
  unfold strLe at h1 h2
  cases a with
  | mk da =>
    cases b with
    | mk db =>
      have : da = db := charListLt_conn h2 h1
      rw [this]

theorem strLt_iff_not_le {a b : String} : strLt a b ↔ ¬ strLe b a := by
  unfold strLt strLe
  simp

instance : IsTotal Row dle := ⟨fun a b => strLe_total a.date b.date⟩

instance : IsTrans Row dle := ⟨fun _ _ _ h1 h2 => strLe_trans h1 h2⟩

instance : IsTotal Row dge := ⟨fun a b => strLe_total b.date a.date⟩

instance : IsTrans Row dge := ⟨fun _ _ _ h1 h2 => strLe_trans h2 h1⟩

/-! ### Sorting helper lemmas -/

theorem sortAsc_perm (l : List Row) : (sortAsc l).Perm l :=
  List.perm_insertionSort dle l

theorem sortDesc_perm (l : List Row) : (sortDesc l).Perm l :=
  List.perm_insertionSort dge l

theorem sortAsc_sorted (l : List Row) : (sortAsc l).Sorted dle :=
  List.sorted_insertionSort dle l

theorem sortDesc_sorted (l : List Row) : (sortDesc l).Sorted dge :=
  List.sorted_insertionSort dge l

theorem sortAsc_idem (l : List Row) : sortAsc (sortAsc l) = sortAsc l :=
  (sortAsc_sorted l).insertionSort_eq

/-- Two sorted permutations of a duplicate-free-date row list coincide. -/
theorem eq_of_perm_sorted_dateNe {l₁ l₂ : List Row} (hp : l₁.Perm l₂)
    (h₁ : l₁.Sorted dge) (h₂ : l₂.Sorted dge) (hd : l₂.Pairwise dateNe) :
    l₁ = l₂ := by
  induction l₁ generalizing l₂ with
  | nil => exact (hp.symm.eq_nil).symm
  | cons a t₁ ih =>
    cases l₂ with
    | nil => exact absurd hp.eq_nil (List.cons_ne_nil a t₁)
    | cons b t₂ =>
      have hab : a = b := by
        by_contra hne
        have ha2 : a ∈ b :: t₂ := hp.mem_iff.mp (List.mem_cons_self a t₁)
        have hb1 : b ∈ a :: t₁ := hp.mem_iff.mpr (List.mem_cons_self b t₂)
        have ha2' : a ∈ t₂ := by
          rcases List.mem_cons.mp ha2 with h | h
          · exact absurd h hne
          · exact h
        have hb1' : b ∈ t₁ := by
          rcases List.mem_cons.mp hb1 with h | h
          · exact absurd h.symm hne
          · exact h
        have hba : strLe b.date a.date := (List.sorted_cons.mp h₁).1 b hb1'
        have hab' : strLe a.date b.date := (List.sorted_cons.mp h₂).1 a ha2'
        exact (List.pairwise_cons.mp hd).1 a ha2'
          (strLe_antisymm hab' hba).symm
      subst hab
      have hpt : t₁.Perm t₂ := hp.cons_inv
      rw [ih hpt (List.sorted_cons.mp h₁).2 (List.sorted_cons.mp h₂).2
        (List.pairwise_cons.mp hd).2]

/-- `dateNe` is symmetric. -/
theorem dateNe_symm : Symmetric dateNe := fun _ _ h => Ne.symm h

/-- With unique dates, ascending pre-sorting does not change the result of a
descending sort (both equal the unique date-sorted arrangement). -/
theorem sortDesc_sortAsc {l : List Row} (hd : l.Pairwise dateNe) :
    sortDesc (sortAsc l) = sortDesc l := by
  refine eq_of_perm_sorted_dateNe ?_ (sortDesc_sorted _) (sortDesc_sorted _) ?_
  · exact (sortDesc_perm _).trans ((sortAsc_perm l).trans (sortDesc_perm l).symm)
  · exact ((sortDesc_perm l).pairwise_iff (fun h => Ne.symm h)).mpr hd

/-! ### Stability of the Utils calculators under the in-place sort -/

theorem getLatestValue_sortAsc {data : List Row} {col : String}
    (hd : data.Pairwise dateNe) :
    Utils.getLatestValue (sortAsc data) col = Utils.getLatestValue data col := by
  unfold Utils.getLatestValue
  rw [sortDesc_sortAsc hd]

theorem getPreviousValue_sortAsc (data : List Row) (col : String) (n : ℕ) (t : ℤ) :
    Utils.getPreviousValue (sortAsc data) col n t =
      Utils.getPreviousValue data col n t := by
  unfold Utils.getPreviousValue
  rw [sortAsc_idem]

theorem getColumnValues_sortAsc (data : List Row) (col : String) :
    Utils.getColumnValues (sortAsc data) col = Utils.getColumnValues data col := by
  unfold Utils.getColumnValues
  rw [sortAsc_idem]

theorem trendPeriods_sortAsc (data : List Row) (col : String) (p : ℕ) (t : ℤ) :
    Utils.trendPeriods (sortAsc data) col p t = Utils.trendPeriods data col p t := by
  unfold Utils.trendPeriods
  rw [sortAsc_idem]

theorem getTrend_sortAsc (data : List Row) (col : String) (p : ℕ) (t : ℤ) :
    Utils.getTrend (sortAsc data) col p t = Utils.getTrend data col p t := by
  have hlen : (sortAsc data).length = data.length :=
    List.length_insertionSort dle data
  unfold Utils.getTrend
  rw [trendPeriods_sortAsc, hlen]

/-- One stats-loop iteration, started from the original table or from its
in-place-sorted version, produces the `mkStat` record of the original table
and leaves the shared array ascending-sorted. -/
theorem statForCol_eq {data : List Row} (hd : data.Pairwise dateNe)
    (col : String) (p : ℕ) (t : ℤ) (d' : List Row)
    (h' : d' = data ∨ d' = sortAsc data) :
    DataStore.statForCol d' col p t = (mkStat data col p t, sortAsc data) := by
  rcases h' with rfl | rfl
  · unfold DataStore.statForCol mkStat
    simp only [Utils.getColumnValues]
    rw [getLatestValue_sortAsc hd, getPreviousValue_sortAsc, getTrend_sortAsc]
  · unfold DataStore.statForCol mkStat
    simp only [Utils.getColumnValues]
    rw [sortAsc_idem, getLatestValue_sortAsc hd, getPreviousValue_sortAsc,
      getTrend_sortAsc]

/-! ### The stats-query loop -/

/-- Record components of the stats loop: the loop emits exactly the `mkStat`
records of the selected columns, in column iteration order. -/
theorem statsFold_fst {data : List Row} (hd : data.Pairwise dateNe)
    (sel : List String) (p : ℕ) (t : ℤ) :
    ∀ (cols : List String) (s : List StatRecord × List Row),
      (s.2 = data ∨ s.2 = sortAsc data) →
      (cols.foldl (DataStore.statsStep sel p t) s).1 =
        s.1 ++ selectedStats data cols sel p t := by
  intro cols
  induction cols with
  | nil =>
    intro s h'
    simp [selectedStats]
  | cons c cs ih =>
    intro s h'
    by_cases hc : c ∈ sel
    · have hcb : sel.contains c = true := by simpa using hc
      have hstep : DataStore.statsStep sel p t s c =
          (s.1 ++ [mkStat data c p t], sortAsc data) := by
        unfold DataStore.statsStep
        rw [if_pos hcb, statForCol_eq hd c p t s.2 h']
      rw [List.foldl_cons, hstep, ih _ (Or.inr rfl)]
      simp [selectedStats, List.filter_cons, hc]
    · have hcb : ¬sel.contains c = true := by simpa using hc
      have hstep : DataStore.statsStep sel p t s c = s := by
        unfold DataStore.statsStep
        rw [if_neg hcb]
      rw [List.foldl_cons, hstep, ih _ h']
      simp [selectedStats, List.filter_cons, hc]

/-- State component of the stats loop: the shared row array ends either
untouched or ascending-sorted. -/
theorem statsFold_snd (data : List Row) (sel : List String) (p : ℕ) (t : ℤ) :
    ∀ (cols : List String) (s : List StatRecord × List Row),
      (s.2 = data ∨ s.2 = sortAsc data) →
      ((cols.foldl (DataStore.statsStep sel p t) s).2 = data ∨
       (cols.foldl (DataStore.statsStep sel p t) s).2 = sortAsc data) := by
  intro cols
  induction cols with
  | nil =>
    intro s h'
    exact h'
  | cons c cs ih =>
    intro s h'
    rw [List.foldl_cons]
    refine ih _ ?_
    by_cases hc : sel.contains c
    · right
      unfold DataStore.statsStep DataStore.statForCol
      rw [if_pos hc]
      simp only [Utils.getColumnValues]
      rcases h' with h' | h' <;> rw [h']
      exact sortAsc_idem data
    · unfold DataStore.statsStep
      rw [if_neg hc]
      exact h'

/-- Every record of `getGithubStats` is the `mkStat` record of some column
of the stored table (dates assumed unique, the table invariant). -/
theorem mem_getGithubStats {st : DataStore} {p : ℕ} {t : ℤ} {s : StatRecord}
    (hd : st.githubData.Pairwise dateNe)
    (hs : s ∈ (DataStore.getGithubStats st p t).1) :
    ∃ c, s = mkStat st.githubData c p t := by
  unfold DataStore.getGithubStats at hs
  by_cases he : st.githubData.isEmpty
  · rw [if_pos he] at hs
    simp at hs
  · rw [if_neg he] at hs
    simp only at hs
    rw [List.mem_insertionSort] at hs
    rw [statsFold_fst hd st.selectedGithub p t st.githubColumns _ (Or.inl rfl)] at hs
    simp only [List.nil_append, selectedStats, List.mem_map] at hs
    obtain ⟨c, _, hc⟩ := hs
    exact ⟨c, hc.symm⟩

/-- Every record of `getPypiStats` is the `mkStat` record of some column of
the stored PyPI table (dates assumed unique, the table invariant). -/
theorem mem_getPypiStats {st : DataStore} {p : ℕ} {t : ℤ} {s : StatRecord}
    (hd : st.pypiData.Pairwise dateNe)
    (hs : s ∈ (DataStore.getPypiStats st p t).1) :
    ∃ c, s = mkStat st.pypiData c p t := by
  unfold DataStore.getPypiStats at hs
  by_cases he : st.pypiData.isEmpty
  · rw [if_pos he] at hs
    simp at hs
  · rw [if_neg he] at hs
    simp only at hs
    rw [List.mem_insertionSort] at hs
    rw [statsFold_fst hd st.selectedPypi p t st.pypiColumns _ (Or.inl rfl)] at hs
    simp only [List.nil_append, selectedStats, List.mem_map] at hs
    obtain ⟨c, _, hc⟩ := hs
    exact ⟨c, hc.symm⟩

/-! ### State preservation of the queries -/

theorem getGithubStats_state (st : DataStore) (p : ℕ) (t : ℤ) :
    preservesStore st (DataStore.getGithubStats st p t).2 := by
  unfold DataStore.getGithubStats
  by_cases he : st.githubData.isEmpty
  · rw [if_pos he]
    exact ⟨List.Perm.refl _, List.Perm.refl _, rfl, rfl, rfl, rfl⟩
  · rw [if_neg he]
    dsimp only
    refine ⟨?_, List.Perm.refl _, rfl, rfl, rfl, rfl⟩
    rcases statsFold_snd st.githubData st.selectedGithub p t st.githubColumns
        (([], st.githubData)) (Or.inl rfl) with h | h
    · rw [h]
    · rw [h]
      exact sortAsc_perm _

theorem getPypiStats_state (st : DataStore) (p : ℕ) (t : ℤ) :
    preservesStore st (DataStore.getPypiStats st p t).2 := by
  unfold DataStore.getPypiStats
  by_cases he : st.pypiData.isEmpty
  · rw [if_pos he]
    exact ⟨List.Perm.refl _, List.Perm.refl _, rfl, rfl, rfl, rfl⟩
  · rw [if_neg he]
    dsimp only
    refine ⟨List.Perm.refl _, ?_, rfl, rfl, rfl, rfl⟩
    rcases statsFold_snd st.pypiData st.selectedPypi p t st.pypiColumns
        (([], st.pypiData)) (Or.inl rfl) with h | h
    · rw [h]
    · rw [h]
      exact sortAsc_perm _

theorem getTopGrower_state (st : DataStore) (p : ℕ) (t : ℤ) :
    preservesStore st (DataStore.getTopGrower st p t).2 := by
  unfold DataStore.getTopGrower
  by_cases he : (DataStore.getGithubStats st p t).1.isEmpty
  · simp only [he, if_pos]
    exact getGithubStats_state st p t
  · simp only [he, if_neg, Bool.false_eq_true, not_false_iff]
    exact getGithubStats_state st p t

theorem getTopByChange_state (st : DataStore) (kind : String) (p l : ℕ) (t : ℤ) :
    preservesStore st (DataStore.getTopByChange st kind p l t).2 := by
  unfold DataStore.getTopByChange
  by_cases hk : kind = "stars"
  · simp only [hk, if_pos]
    exact getGithubStats_state st p t
  · simp only [hk, if_neg, not_false_iff]
    exact getPypiStats_state st p t

theorem resolveStackedColumns_state (st : DataStore) (kind : String)
    (items : Option (List String)) (cp : ℕ) (t : ℤ) :
    preservesStore st (DataStore.resolveStackedColumns st kind items cp t).2 := by
  unfold DataStore.resolveStackedColumns
  have hfb : preservesStore st
      (DataStore.getTopByChange st kind cp 5 t).2 := getTopByChange_state st kind cp 5 t
  cases items with
  | none =>
    simp only
    split <;> exact hfb
  | some cs =>
    by_cases hcs : cs.isEmpty
    · simp only [hcs, if_pos]
      split <;> exact hfb
    · simp only [hcs, if_neg, Bool.false_eq_true, not_false_iff]
      exact ⟨List.Perm.refl _, List.Perm.refl _, rfl, rfl, rfl, rfl⟩

theorem getStackedGrowthData_snd (st : DataStore) (kind : String)
    (items : Option (List String)) (cp : ℕ) (t : ℤ) (env : DateEnv) :
    (DataStore.getStackedGrowthData st kind items cp t env).2 =
      (DataStore.resolveStackedColumns st kind items cp t).2 := by
  unfold DataStore.getStackedGrowthData
  dsimp only
  split <;> split <;> rfl

theorem getStackedGrowthData_state (st : DataStore) (kind : String)
    (items : Option (List String)) (cp : ℕ) (t : ℤ) (env : DateEnv) :
    preservesStore st (DataStore.getStackedGrowthData st kind items cp t env).2 := by
  rw [getStackedGrowthData_snd]
  exact resolveStackedColumns_state st kind items cp t

/-! ### The top-grower reducer returns the first maximum -/

theorem foldBest_go {xs : List StatRecord} {b m : StatRecord}
    (h : xs.foldl DataStore.pickBest (some b) = some m) :
    (∀ x ∈ b :: xs, x.change ≤ m.change) ∧
      (m = b ∨ ∃ l₁ l₂, xs = l₁ ++ m :: l₂ ∧ ∀ x ∈ b :: l₁, x.change < m.change) := by
  induction xs generalizing b with
  | nil =>
    simp only [List.foldl_nil, Option.some.injEq] at h
    subst h
    refine ⟨?_, Or.inl rfl⟩
    intro x hx
    rcases List.mem_cons.mp hx with rfl | hx
    · exact le_refl _
    · exact absurd hx (List.not_mem_nil x)
  | cons x xs ih =>
    rw [List.foldl_cons] at h
    by_cases hbx : b.change < x.change
    · have hx : DataStore.pickBest (some b) x = some x := by
        show (if b.change < x.change then some x else some b) = some x
        exact if_pos hbx
      rw [hx] at h
      obtain ⟨hle, hsplit⟩ := ih h
      constructor
      · intro y hy
        rcases List.mem_cons.mp hy with rfl | hy
        · exact le_of_lt (lt_of_lt_of_le hbx (hle x (List.mem_cons_self x xs)))
        · exact hle y hy
      · rcases hsplit with rfl | ⟨l₁, l₂, rfl, hlt⟩
        · refine Or.inr ⟨[], xs, rfl, ?_⟩
          intro y hy
          rcases List.mem_cons.mp hy with rfl | hy
          · exact hbx
          · exact absurd hy (List.not_mem_nil y)
        · refine Or.inr ⟨x :: l₁, l₂, rfl, ?_⟩
          intro y hy
          rcases List.mem_cons.mp hy with rfl | hy
          · exact lt_of_lt_of_le hbx (le_of_lt (hlt x (List.mem_cons_self x l₁)))
          · exact hlt y hy
    · have hx : DataStore.pickBest (some b) x = some b := by
        show (if b.change < x.change then some x else some b) = some b
        exact if_neg hbx
      rw [hx] at h
      obtain ⟨hle, hsplit⟩ := ih h
      constructor
      · intro y hy
        rcases List.mem_cons.mp hy with rfl | hy
        · exact hle y (List.mem_cons_self y xs)
        · rcases List.mem_cons.mp hy with rfl | hy
          · exact le_trans (le_of_not_lt hbx) (hle b (List.mem_cons_self b xs))
          · exact hle y (List.mem_cons_of_mem b hy)
      · rcases hsplit with rfl | ⟨l₁, l₂, rfl, hlt⟩
        · exact Or.inl rfl
        · refine Or.inr ⟨x :: l₁, l₂, rfl, ?_⟩
          intro y hy
          rcases List.mem_cons.mp hy with rfl | hy
          · exact hlt y (List.mem_cons_self y l₁)
          · rcases List.mem_cons.mp hy with rfl | hy
            · exact lt_of_le_of_lt (le_of_not_lt hbx)
                (hlt b (List.mem_cons_self b l₁))
            · exact hlt y (List.mem_cons_of_mem b hy)

/-! ### Window classification facts -/

theorem classify_cases (s e : Option ℚ) (th : ℚ) :
    Utils.classifyPeriodGrowth s e th = "growth" ∨
    Utils.classifyPeriodGrowth s e th = "decline" ∨
    Utils.classifyPeriodGrowth s e th = "stagnant" := by
  unfold Utils.classifyPeriodGrowth
  dsimp only
  split_ifs with h1 h2 h3
  · exact Or.inr (Or.inr rfl)
  · exact Or.inl rfl
  · exact Or.inr (Or.inl rfl)
  · exact Or.inr (Or.inr rfl)

theorem trendPeriods_length_le (data : List Row) (col : String) (p : ℕ) (t : ℤ) :
    (Utils.trendPeriods data col p t).length ≤ 3 := by
  unfold Utils.trendPeriods
  exact le_trans (List.length_filterMap_le _ _) (by simp)

theorem trendPeriods_mem (data : List Row) (col : String) (p : ℕ) (t : ℤ) :
    ∀ x ∈ Utils.trendPeriods data col p t,
      x = "growth" ∨ x = "decline" ∨ x = "stagnant" := by
  intro x hx
  unfold Utils.trendPeriods at hx
  simp only [List.mem_filterMap] at hx
  obtain ⟨i, _, hfi⟩ := hx
  split at hfi
  · rw [Option.some.injEq] at hfi
    subst hfi
    exact classify_cases _ _ _
  · exact absurd hfi (by simp)

/-- The source reduction agrees with the claimed priority-order reduction on
every window list the classifier can produce (length at most three, each
entry one of the three window states). -/
theorem trendReduce_spec (ps : List String) (th : ℚ) (lab : String)
    (hlen : ps.length ≤ 3)
    (hmem : ∀ x ∈ ps, x = "growth" ∨ x = "decline" ∨ x = "stagnant") :
    (Utils.trendReduce ps th lab).symbol = specReduceSymbol ps ∧
    (Utils.trendReduce ps th lab).value = specReduceValue ps := by
  rcases ps with _ | ⟨a, _ | ⟨b, _ | ⟨c, _ | ⟨d, tl⟩⟩⟩⟩
  · exact ⟨rfl, rfl⟩
  · rcases hmem a (by simp) with rfl | rfl | rfl <;> exact ⟨rfl, rfl⟩
  · rcases hmem a (by simp) with rfl | rfl | rfl <;>
      rcases hmem b (by simp) with rfl | rfl | rfl <;> exact ⟨rfl, rfl⟩
  · rcases hmem a (by simp) with rfl | rfl | rfl <;>
      rcases hmem b (by simp) with rfl | rfl | rfl <;>
      rcases hmem c (by simp) with rfl | rfl | rfl <;> exact ⟨rfl, rfl⟩
  · simp at hlen

/-! ### Heads of sorted lists with a strict extremum -/

theorem sortDesc_head_strictMax {data : List Row} {m : Row} (hm : m ∈ data)
    (hmax : ∀ r ∈ data, r ≠ m → strLt r.date m.date) :
    (sortDesc data).head? = some m := by
  have hperm := sortDesc_perm data
  have hsorted := sortDesc_sorted data
  cases hl : sortDesc data with
  | nil =>
    rw [hl] at hperm
    exact absurd (hperm.symm.mem_iff.mp hm) (List.not_mem_nil m)
  | cons a tl =>
    rw [hl] at hperm hsorted
    rw [List.head?_cons, Option.some.injEq]
    by_contra ham
    have ha : a ∈ data := hperm.mem_iff.mp (List.mem_cons_self a tl)
    have hlt : strLt a.date m.date := hmax a ha ham
    have hm' : m ∈ a :: tl := hperm.mem_iff.mpr hm
    have hm'' : m ∈ tl := by
      rcases List.mem_cons.mp hm' with h | h
      · exact absurd h.symm ham
      · exact h
    exact absurd ((List.sorted_cons.mp hsorted).1 m hm'') (strLt_iff_not_le.mp hlt)

theorem sortAsc_head_strictMin {data : List Row} {m : Row} (hm : m ∈ data)
    (hmin : ∀ r ∈ data, r ≠ m → strLt m.date r.date) :
    (sortAsc data).head? = some m := by
  have hperm := sortAsc_perm data
  have hsorted := sortAsc_sorted data
  cases hl : sortAsc data with
  | nil =>
    rw [hl] at hperm
    exact absurd (hperm.symm.mem_iff.mp hm) (List.not_mem_nil m)
  | cons a tl =>
    rw [hl] at hperm hsorted
    rw [List.head?_cons, Option.some.injEq]
    by_contra ham
    have ha : a ∈ data := hperm.mem_iff.mp (List.mem_cons_self a tl)
    have hlt : strLt m.date a.date := hmin a ha ham
    have hm' : m ∈ a :: tl := hperm.mem_iff.mpr hm
    have hm'' : m ∈ tl := by
      rcases List.mem_cons.mp hm' with h | h
      · exact absurd h.symm ham
      · exact h
    exact absurd ((List.sorted_cons.mp hsorted).1 m hm'') (strLt_iff_not_le.mp hlt)

theorem getLatestValue_strictMax {data : List Row} {col : String} {m : Row}
    (hm : m ∈ data) (hmax : ∀ r ∈ data, r ≠ m → strLt r.date m.date) :
    Utils.getLatestValue data col = m.get col := by
  have hh := sortDesc_head_strictMax hm hmax
  unfold Utils.getLatestValue
  cases hl : sortDesc data with
  | nil =>
    rw [hl] at hh
    exact absurd hh (by simp)
  | cons a tl =>
    rw [hl, List.head?_cons, Option.some.injEq] at hh
    rw [hh]

/-! ### Growth-bucket facts -/

theorem mkGrowth_nonneg (buckets : List Bucket) (col : String) :
    ∀ v ∈ DataStore.mkGrowth buckets col, 0 ≤ v := by
  intro v hv
  unfold DataStore.mkGrowth at hv
  rw [List.mem_map] at hv
  obtain ⟨pc, _, hpc⟩ := hv
  rw [← hpc]
  exact le_max_left 0 _

theorem mkGrowth_length (buckets : List Bucket) (col : String) :
    (DataStore.mkGrowth buckets col).length = buckets.length - 1 := by
  unfold DataStore.mkGrowth
  rw [List.length_map, List.length_zip, List.length_tail]
  omega

theorem mkGrowth_getElem (buckets : List Bucket) (col : String) (j : ℕ)
    (bp bc : Bucket) (hp : buckets[j]? = some bp) (hc : buckets[j + 1]? = some bc) :
    (DataStore.mkGrowth buckets col)[j]? =
      some (max 0 ((bc.data.lookup col).getD 0 - (bp.data.lookup col).getD 0)) := by
  unfold DataStore.mkGrowth
  rw [List.getElem?_map, List.zip_eq_zipWith, List.getElem?_zipWith', hp]
  have ht : buckets.tail[j]? = some bc := by
    rw [List.getElem?_tail]
    exact hc
  rw [ht]
  rfl


/-! ### Claim theorems -/

/-- Claim C1 (amended): contrary to the claim, `current` is the value of the
column in the unique row with the maximum date whether or not the column is
present there (no fallback to an earlier row where it is present), and every
record of `getGithubStats` carries `current = getLatestValue` of the stored
table at the record's name. -/
theorem C1_theorem :
    (∀ (data : List Row) (col : String) (m : Row), m ∈ data →
      (∀ r ∈ data, r ≠ m → strLt r.date m.date) →
      Utils.getLatestValue data col = m.get col) ∧
    (∀ (st : DataStore) (p : ℕ) (t : ℤ) (s : StatRecord),
      st.githubData.Pairwise dateNe →
      s ∈ (DataStore.getGithubStats st p t).1 →
      s.current = Utils.getLatestValue st.githubData s.name) := by
  constructor
  · intro data col m hm hmax
    exact getLatestValue_strictMax hm hmax
  · intro st p t s hd hs
    obtain ⟨c, rfl⟩ := mem_getGithubStats hd hs
    rfl

/-- Claim C1 counterexample: the column is present with value 5 in an earlier
row, yet `getLatestValue` returns the max-date row's absent value, so
`current` is not "the value in the row with the maximum date where the column
is present". -/
theorem C1_counterexample :
    (⟨"2024-01-01", [("x", some 5)]⟩ : Row) ∈ data1 ∧
    Row.get ⟨"2024-01-01", [("x", some 5)]⟩ "x" = some 5 ∧
    Utils.getLatestValue data1 "x" = none := by decide

/-- Claim C1 witness. -/
theorem C1_witness :
    Utils.getLatestValue data1 "x" = Row.get ⟨"2024-01-02", [("x", none)]⟩ "x" :=
  C1_theorem.1 data1 "x" ⟨"2024-01-02", [("x", none)]⟩ (by decide) (by decide)

/-- Claim C2 (amended): the streak attached to each `getPypiStats` record is
computed by the gauge classifier `Utils.getTrend` on the stored PyPI table;
the cumulative-sum variant `Utils.getPypiTrend` exists in the source but is
not invoked by `getPypiStats`. -/
theorem C2_theorem (st : DataStore) (p : ℕ) (t : ℤ) (s : StatRecord)
    (hd : st.pypiData.Pairwise dateNe)
    (hs : s ∈ (DataStore.getPypiStats st p t).1) :
    s.streak = Utils.getTrend st.pypiData s.name p t := by
  obtain ⟨c, rfl⟩ := mem_getPypiStats hd hs
  rfl

unseal Rat.sub Rat.add Rat.mul Rat.inv in
/-- Claim C2 counterexample: on this PyPI table the cumulative-sum variant
returns insufficient-data while the streak actually attached by
`getPypiStats` is the gauge classifier's flat result. -/
theorem C2_counterexample :
    ((DataStore.getPypiStats st2 30 d0).1.map fun s => s.streak.symbol) = ["→"] ∧
    (Utils.getPypiTrend st2.pypiData "pkg" 30 d0).symbol = "—" := by decide

/-- The record `getPypiStats` produces for column `pkg` of `st2`. -/
def s2rec : StatRecord :=
  ⟨"pkg", some 10, 0, 0, ⟨"→", 0, "Change within ±2% (stagnant)"⟩, [10, 10]⟩

unseal Rat.sub Rat.add Rat.mul Rat.inv in
/-- Claim C2 witness. -/
theorem C2_witness :
    s2rec.streak = Utils.getTrend st2.pypiData s2rec.name 30 d0 :=
  C2_theorem st2 30 d0 s2rec (by decide) (by decide)

/-- Claim C3 (amended): contrary to the claim, when no row is dated on or
before (today − windowDays) the change calculation does not treat `previous`
as absent: `getPreviousValue` falls back to the value of the earliest row
(strict minimum date). -/
theorem C3_theorem (data : List Row) (col : String) (daysBack : ℕ) (t : ℤ)
    (m : Row) (hm : m ∈ data) (hmin : ∀ r ∈ data, r ≠ m → strLt m.date r.date)
    (hall : ∀ r ∈ data, strLt (Utils.getDaysAgo t daysBack) r.date) :
    Utils.getPreviousValue data col daysBack t = m.get col := by
  have hh := sortAsc_head_strictMin hm hmin
  unfold Utils.getPreviousValue
  cases hl : sortAsc data with
  | nil =>
    rw [hl] at hh
    exact absurd hh (by simp)
  | cons s0 rest =>
    rw [hl, List.head?_cons, Option.some.injEq] at hh
    have hs0 : s0 ∈ data := (sortAsc_perm data).mem_iff.mp
      (by rw [hl]; exact List.mem_cons_self _ _)
    have hpred : ¬ strLe s0.date (Utils.getDaysAgo t daysBack) :=
      strLt_iff_not_le.mp (hall s0 hs0)
    dsimp only
    rw [List.takeWhile_cons, if_neg (by simpa using hpred), List.getLast?_nil]
    dsimp only [Option.getD]
    rw [hh]

unseal Rat.sub Rat.add Rat.mul Rat.inv in
/-- Claim C3 counterexample: both rows are dated after (today − 30); the
claim predicts previous absent, abs = current = 110 and percent = 0, but the
code returns previous = 100, abs = 10 and percent = 10. -/
theorem C3_counterexample :
    (data3.all fun r => decide (strLt (Utils.getDaysAgo d0 30) r.date)) = true ∧
    Utils.getPreviousValue data3 "x" 30 d0 = some 100 ∧
    Utils.calculateChange (Utils.getLatestValue data3 "x")
      (Utils.getPreviousValue data3 "x" 30 d0) = (10, 10) := by decide

/-- Claim C3 witness. -/
theorem C3_witness :
    Utils.getPreviousValue data3 "x" 30 d0 =
      Row.get ⟨"2026-10-07", [("x", some 100)]⟩ "x" :=
  C3_theorem data3 "x" 30 d0 ⟨"2026-10-07", [("x", some 100)]⟩
    (by decide) (by decide) (by decide)

/-- Claim C4 (amended): for tables with at least two rows, the gauge trend
classifier's symbol and magnitude follow the claimed priority order (first
match wins) evaluated on the evaluable-window list. -/
theorem C4_theorem (data : List Row) (col : String) (p : ℕ) (t : ℤ)
    (h : 2 ≤ data.length) :
    (Utils.getTrend data col p t).symbol =
      specReduceSymbol (Utils.trendPeriods data col p t) ∧
    (Utils.getTrend data col p t).value =
      specReduceValue (Utils.trendPeriods data col p t) := by
  have hne : ¬ data.length < 2 := by omega
  unfold Utils.getTrend
  rw [if_neg hne]
  exact trendReduce_spec _ _ _ (trendPeriods_length_le data col p t)
    (trendPeriods_mem data col p t)

unseal Rat.sub Rat.add Rat.mul Rat.inv in
/-- Claim C4 counterexample: a one-row table has three evaluable (stagnant)
windows, so the claimed priority order yields flat, but the classifier
returns insufficient-data from its `length < 2` guard. -/
theorem C4_counterexample :
    Utils.trendPeriods data4 "x" 30 d0 = ["stagnant", "stagnant", "stagnant"] ∧
    (Utils.getTrend data4 "x" 30 d0).symbol = "—" ∧
    specReduceSymbol ["stagnant", "stagnant", "stagnant"] = "→" := by decide

/-- Claim C4 witness. -/
theorem C4_witness :
    (Utils.getTrend flat8 "x" 30 d0).symbol =
      specReduceSymbol (Utils.trendPeriods flat8 "x" 30 d0) :=
  (C4_theorem flat8 "x" 30 d0 (by decide)).1

/-- Claim C5: every emitted growth value of the growth bucketer equals
max(0, thisBucketValue − previousBucketValue) with absent bucket values
defaulting to 0, every emitted value is nonnegative, and the first bucket is
excluded from the output series (emitted length = buckets − 1). -/
theorem C5_theorem (st : DataStore) (kind : String) (items : Option (List String))
    (cp : ℕ) (t : ℤ) (env : DateEnv) :
    ∀ ds ∈ (DataStore.getStackedGrowthData st kind items cp t env).1.datasets,
      ds.data =
        DataStore.mkGrowth (DataStore.stackedBuckets st kind items cp t env)
          ds.fullName ∧
      (∀ v ∈ ds.data, 0 ≤ v) ∧
      ds.data.length =
        (DataStore.stackedBuckets st kind items cp t env).length - 1 ∧
      (∀ (j : ℕ) (bp bc : Bucket),
        (DataStore.stackedBuckets st kind items cp t env)[j]? = some bp →
        (DataStore.stackedBuckets st kind items cp t env)[j + 1]? = some bc →
        ds.data[j]? = some (max 0 ((bc.data.lookup ds.fullName).getD 0 -
          (bp.data.lookup ds.fullName).getD 0))) := by
  intro ds hds
  unfold DataStore.getStackedGrowthData at hds
  dsimp only at hds
  split at hds <;> split at hds <;> dsimp only at hds
  all_goals first
    | exact absurd hds (List.not_mem_nil ds)
    | (rw [List.mem_map] at hds
       obtain ⟨col, _, hcol⟩ := hds
       subst hcol
       refine ⟨rfl, mkGrowth_nonneg _ _, mkGrowth_length _ _, ?_⟩
       intro j bp bc hp hc
       exact mkGrowth_getElem _ _ j bp bc hp hc)

unseal Rat.sub Rat.add Rat.mul Rat.inv in
/-- Claim C5 witness. -/
theorem C5_witness :
    (⟨"a", "a", [1]⟩ : GrowthDataset).data =
      DataStore.mkGrowth
        (DataStore.stackedBuckets st9 "stars" (some ["a"]) 30 d0 env5) "a" ∧
    (0 : ℚ) ≤ 1 := by
  have h := C5_theorem st9 "stars" (some ["a"]) 30 d0 env5
    ⟨"a", "a", [1]⟩ (by decide)
  exact ⟨h.1, h.2.1 1 (by decide)⟩

/-- Claim C6 (amended): the growth threshold is a non-DECREASING step
function of the window length with exactly three tiers: 1.0 for w ≤ 7, 2.0
for 7 < w ≤ 30, and 3.0 otherwise. -/
theorem C6_theorem :
    (∀ w1 w2 : ℕ, w1 ≤ w2 →
      Utils.getGrowthThreshold w1 ≤ Utils.getGrowthThreshold w2) ∧
    (∀ w : ℕ, w ≤ 7 → Utils.getGrowthThreshold w = 1) ∧
    (∀ w : ℕ, 7 < w → w ≤ 30 → Utils.getGrowthThreshold w = 2) ∧
    (∀ w : ℕ, 30 < w → Utils.getGrowthThreshold w = 3) := by
  refine ⟨?_, ?_, ?_, ?_⟩
  · intro w1 w2 h
    unfold Utils.getGrowthThreshold
    split_ifs <;> first | (exfalso; omega) | norm_num
  · intro w h
    unfold Utils.getGrowthThreshold
    rw [if_pos h]
  · intro w h1 h2
    unfold Utils.getGrowthThreshold
    rw [if_neg (by omega), if_pos h2]
  · intro w h
    unfold Utils.getGrowthThreshold
    rw [if_neg (by omega), if_neg (by omega)]

/-- Claim C6 counterexample: the threshold increases at the breakpoint
(1.0 at w = 7 versus 2.0 at w = 8), so it is not a non-increasing function
of the window length. -/
theorem C6_counterexample :
    Utils.getGrowthThreshold 7 = 1 ∧ Utils.getGrowthThreshold 8 = 2 ∧
    ¬ Utils.getGrowthThreshold 8 ≤ Utils.getGrowthThreshold 7 := by decide

/-- Claim C6 witness. -/
theorem C6_witness :
    Utils.getGrowthThreshold 5 ≤ Utils.getGrowthThreshold 10 ∧
    Utils.getGrowthThreshold 5 = 1 ∧ Utils.getGrowthThreshold 10 = 2 ∧
    Utils.getGrowthThreshold 90 = 3 :=
  ⟨C6_theorem.1 5 10 (by decide), C6_theorem.2.1 5 (by decide),
    C6_theorem.2.2.1 10 (by decide) (by decide), C6_theorem.2.2.2 90 (by decide)⟩

/-- Claim C7 (amended): `getTopGrower` returns the record with maximal
changeAbs, with ties broken by position in the stats list produced by
`getGithubStats` (which is sorted descending by current value), first
occurrence winning — not by active-column iteration order. -/
theorem C7_theorem (st : DataStore) (p : ℕ) (t : ℤ) (m : StatRecord)
    (h : (DataStore.getTopGrower st p t).1 = some m) :
    m ∈ (DataStore.getGithubStats st p t).1 ∧
    (∀ x ∈ (DataStore.getGithubStats st p t).1, x.change ≤ m.change) ∧
    ∃ l₁ l₂, (DataStore.getGithubStats st p t).1 = l₁ ++ m :: l₂ ∧
      ∀ x ∈ l₁, x.change < m.change := by
  unfold DataStore.getTopGrower at h
  dsimp only at h
  by_cases he : (DataStore.getGithubStats st p t).1.isEmpty
  · rw [if_pos he] at h
    exact absurd h (by simp)
  · rw [if_neg he] at h
    cases hl : (DataStore.getGithubStats st p t).1 with
    | nil =>
      rw [hl] at he
      simp at he
    | cons s rest =>
      rw [hl, List.foldl_cons] at h
      have h0 : DataStore.pickBest none s = some s := rfl
      rw [h0] at h
      obtain ⟨hle, hsplit⟩ := foldBest_go h
      refine ⟨?_, hle, ?_⟩
      · rcases hsplit with rfl | ⟨l₁, l₂, hrest, _⟩
        · exact List.mem_cons_self _ _
        · rw [hrest]
          exact List.mem_cons_of_mem _ (by simp)
      · rcases hsplit with rfl | ⟨l₁, l₂, hrest, hlt⟩
        · exact ⟨[], rest, rfl, by simp⟩
        · exact ⟨s :: l₁, l₂, by rw [hrest, List.cons_append], hlt⟩

unseal Rat.sub Rat.add Rat.mul Rat.inv in
/-- Claim C7 counterexample: columns iterate as [a, b], both records tie at
changeAbs = 10, yet `b` (larger current, hence earlier in the sorted stats
list) is returned, not the first active column `a`. -/
theorem C7_counterexample :
    st7.githubColumns = ["a", "b"] ∧
    ((DataStore.getGithubStats st7 30 d0).1.map fun s => (s.name, s.change)) =
      [("b", 10), ("a", 10)] ∧
    ((DataStore.getTopGrower st7 30 d0).1.map fun s => s.name) = some "b" := by
  decide

/-- The record `getTopGrower` returns on `st7`. -/
def m7 : StatRecord :=
  ⟨"b", some 110, 10, 10, ⟨"↗", 1, "Growing >2% this month"⟩, [100, 110]⟩

unseal Rat.sub Rat.add Rat.mul Rat.inv in
/-- Claim C7 witness. -/
theorem C7_witness : m7 ∈ (DataStore.getGithubStats st7 30 d0).1 :=
  (C7_theorem st7 30 d0 m7 (by decide)).1

/-- Claim C8 (amended): the string-symbol rank map sends the
insufficient-data symbol strictly below every other streak symbol (−99),
but the `value` field inside the insufficient-data StreakResult object
produced by the classifiers is 0, which ties with flat. -/
theorem C8_theorem :
    (∀ s ∈ (["↗↗↗", "↗↗", "↗", "→", "↘", "↘↘"] : List String),
      Utils.streakToNumber "—" < Utils.streakToNumber s) ∧
    (∀ (data : List Row) (col : String) (p : ℕ) (t : ℤ), data.length < 2 →
      Utils.getTrend data col p t = ⟨"—", 0, "Not enough data"⟩) := by
  constructor
  · decide
  · intro data col p t h
    unfold Utils.getTrend
    rw [if_pos h]

unseal Rat.sub Rat.add Rat.mul Rat.inv in
/-- Claim C8 counterexample: the insufficient-data StreakResult carries
magnitude 0, which is not strictly lower than the flat StreakResult's 0. -/
theorem C8_counterexample :
    (Utils.getTrend ([] : List Row) "x" 30 d0).symbol = "—" ∧
    (Utils.getTrend flat8 "x" 30 d0).symbol = "→" ∧
    ¬ (Utils.getTrend ([] : List Row) "x" 30 d0).value <
      (Utils.getTrend flat8 "x" 30 d0).value := by decide

/-- Claim C8 witness. -/
theorem C8_witness : Utils.streakToNumber "—" < Utils.streakToNumber "→" :=
  C8_theorem.1 "→" (by decide)

/-- Claim C9 (amended): every engine query keeps the set of rows, the row
contents, the column lists and the selection sets of the store intact; the
row arrays may only be reordered (they are sorted in place by
`getColumnValues`). -/
theorem C9_theorem (st : DataStore) (p : ℕ) (t : ℤ) (kind : String)
    (items : Option (List String)) (cp : ℕ) (env : DateEnv) :
    preservesStore st (DataStore.getGithubStats st p t).2 ∧
    preservesStore st (DataStore.getPypiStats st p t).2 ∧
    preservesStore st (DataStore.getTopGrower st p t).2 ∧
    preservesStore st (DataStore.getStackedGrowthData st kind items cp t env).2 :=
  ⟨getGithubStats_state st p t, getPypiStats_state st p t,
    getTopGrower_state st p t, getStackedGrowthData_state st kind items cp t env⟩

unseal Rat.sub Rat.add Rat.mul Rat.inv in
/-- Claim C9 counterexample: on an unsorted table, `getGithubStats` returns
a changed store — the caller-supplied row array has been reordered. -/
theorem C9_counterexample : (DataStore.getGithubStats st9 30 d0).2 ≠ st9 := by
  decide

/-- Claim C10: a window whose start-boundary value is zero or absent is
classified stagnant by the gauge window classifier, never growth or decline,
regardless of the end value and the threshold. -/
theorem C10_theorem (startVal endVal : Option ℚ) (th : ℚ)
    (h : startVal = none ∨ startVal = some 0) :
    Utils.classifyPeriodGrowth startVal endVal th = "stagnant" := by
  unfold Utils.classifyPeriodGrowth
  rw [if_pos h]

/-- Claim C10 witness. -/
theorem C10_witness : Utils.classifyPeriodGrowth none (some 5) 2 = "stagnant" :=
  C10_theorem none (some 5) 2 (Or.inl rfl)

end StarTrack
